import Mathlib

/-!
Verification development for the JasonAgent document pipeline.

The definitions below are a shallow embedding of the Python sources:

* `ocr_client.py` — the canonical-request HMAC signing scheme
  (`canonical_query`, `get_signing_key`, `sign_request`) and the OCR
  response handling (`request_visual_ocr`, `extract_ocr_text`).
* `main.py` — the result cache gating (`generate_ai_documents`), the
  retry/backoff loop (`call_doubao`), the result-collection and
  output-writing loops, and the snapshot comparison in `main`.

Python dictionaries are embedded as association lists iterated in
insertion order; dictionary assignment is the `upsert` operation below.
The cryptographic primitives (SHA-256 and HMAC-SHA-256) are abstracted
as opaque function parameters gathered in a `Crypto` structure: every
property proved here is about the structure of the strings fed to and
built from those primitives, never about the primitives' values.
Wall-clock timestamps are passed in explicitly (`format_date`), since the
claims under study fix the timestamp.
-/

namespace JasonAgent

/-- Abstraction of `hashlib.sha256(·).hexdigest()`, `hmac.new(k, m, sha256).digest()`
and `hmac.new(k, m, sha256).hexdigest()`.  Keys and digests are byte strings,
modelled as `String`. -/
structure Crypto where
  sha256hex : String → String
  hmacDig : String → String → String
  hmacHex : String → String → String

/-- A concrete stand-in instance used to evaluate the model on closed inputs.
It is injective on the inputs occurring in the examples, as a collision-free
hash is. -/
def cryptoRef : Crypto where
  sha256hex s := "S(" ++ s ++ ")"
  hmacDig k m := "D(" ++ k ++ "," ++ m ++ ")"
  hmacHex k m := "H(" ++ k ++ "," ++ m ++ ")"

/-! ### Python string primitives

Python compares strings by code points and lower-cases ASCII letters; these
are embedded as structurally recursive functions on the character list of a
`String`, so that every definition evaluates by kernel reduction. -/

/-- Code-point lexicographic `≤` on character lists (Python string `<=`). -/
def strLeB : List Char → List Char → Bool
  | [], _ => true
  | _ :: _, [] => false
  | a :: as, b :: bs =>
    if a.toNat < b.toNat then true
    else if b.toNat < a.toNat then false
    else strLeB as bs

/-- Python `<=` on strings, as a relation. -/
def pyStrLe (a b : String) : Prop := strLeB a.data b.data = true

instance : DecidableRel pyStrLe := fun a b => by
  unfold pyStrLe; infer_instance

/-- Python `str.lower()` on one character (ASCII case fold, which is all the
code relies on). -/
def pyLowerChar (c : Char) : Char :=
  if 65 ≤ c.toNat ∧ c.toNat ≤ 90 then Char.ofNat (c.toNat + 32) else c

/-- Python `str.lower()`. -/
def pyLower (s : String) : String := ⟨s.data.map pyLowerChar⟩

/-- Python `s.startswith(pre)`. -/
def pyStartsWith (s pre : String) : Bool := pre.data.isPrefixOf s.data

/-! ### `urllib.parse.quote` with `safe="-_.~"` -/

/-- Upper-case hex digit, as CPython's percent-encoder produces. -/
def hexDigit (n : Nat) : Char :=
  if n < 10 then Char.ofNat (48 + n) else Char.ofNat (55 + n)

/-- Hex byte `%XX`. -/
def percentByte (b : Nat) : String :=
  ⟨['%', hexDigit (b / 16), hexDigit (b % 16)]⟩

/-- UTF-8 bytes of a character (what `str.encode("utf-8")` produces per char). -/
def utf8Bytes (c : Char) : List Nat :=
  let n := c.toNat
  if n < 0x80 then [n]
  else if n < 0x800 then [0xC0 + n / 64, 0x80 + n % 64]
  else if n < 0x10000 then [0xE0 + n / 4096, 0x80 + n / 64 % 64, 0x80 + n % 64]
  else [0xF0 + n / 262144, 0x80 + n / 4096 % 64, 0x80 + n / 64 % 64, 0x80 + n % 64]

/-- `quote`'s always-safe characters plus `safe="-_.~"` (which is a subset of
the always-safe set `ALPHA / DIGIT / "-" / "." / "_" / "~"`). -/
def quoteSafe (c : Char) : Bool :=
  c.isAlpha || c.isDigit || c = '-' || c = '_' || c = '.' || c = '~'

/-- Embedding of `urllib.parse.quote(s, safe="-_.~")`. -/
def pyQuote (s : String) : String :=
  String.join (s.data.map fun c =>
    if quoteSafe c then String.singleton c else String.join ((utf8Bytes c).map percentByte))

/-! ### Association lists standing for Python dicts -/

/-- Python dict assignment `d[k] = v` on an insertion-ordered association
list: an existing key keeps its position and gets the new value, a new key is
appended. -/
def upsert (l : List (String × String)) (k v : String) : List (String × String) :=
  if l.any (fun kv => kv.1 = k) then
    l.map (fun kv => if kv.1 = k then (k, v) else kv)
  else
    l ++ [(k, v)]

/-- Python dict lookup `d[k]` / `d.get(k)`. -/
def lookupStr (l : List (String × String)) (k : String) : Option String :=
  (l.find? (fun kv => kv.1 = k)).map (fun kv => kv.2)

/-- Keys of the dict, in insertion order. -/
def keysOf (l : List (String × String)) : List String := l.map (fun kv => kv.1)

/-! ### `canonical_query` (ocr_client.py:107-111) -/

/-- Python's tuple comparison on `(key, value)` string pairs: compare the
keys by code points, break ties with the values. -/
def pairLeB (a b : String × String) : Bool :=
  if a.1 = b.1 then strLeB a.2.data b.2.data else strLeB a.1.data b.1.data

/-- `pairLeB` as a relation, for the sorting lemmas. -/
def pairLe (a b : String × String) : Prop := pairLeB a b = true

instance : DecidableRel pairLe := fun a b => by
  unfold pairLe; infer_instance

/-- `sorted(items)` on a list of `(key, value)` string pairs. -/
def sortPairs (l : List (String × String)) : List (String × String) :=
  l.insertionSort pairLe

/-- Embedding of `canonical_query` (ocr_client.py:107-111): percent-encode
keys and values, sort the encoded pairs, join as `k=v` with `&`. -/
def canonical_query (query : List (String × String)) : String :=
  let items := query.map (fun kv => (pyQuote kv.1, pyQuote kv.2))
  String.intercalate "&" ((sortPairs items).map (fun kv => kv.1 ++ "=" ++ kv.2))

/-! ### Signed-header selection (ocr_client.py:147-162) -/

/-- The header-selection test of ocr_client.py:149:
`key in {"Content-Type", "Content-Md5", "Host"} or key.startswith("X-")`. -/
def isSignedHeaderName (k : String) : Bool :=
  k = "Content-Type" || k = "Content-Md5" || k = "Host" || pyStartsWith k "X-"

/-- The lower-cased names of the headers selected for signing, in input
order (the keys inserted into `signed_headers` by ocr_client.py:147-150). -/
def selectedLowerKeys (headers : List (String × String)) : List String :=
  headers.filterMap (fun kv => if isSignedHeaderName kv.1 then some (pyLower kv.1) else none)

/-- The loop of ocr_client.py:147-150 building the `signed_headers` dict:
selected headers are inserted under their lower-cased name, later entries
overwriting earlier ones that lower-case to the same name. -/
def collectSignedHeaders (headers : List (String × String)) : List (String × String) :=
  headers.foldl
    (fun acc kv => if isSignedHeaderName kv.1 then upsert acc (pyLower kv.1) kv.2 else acc)
    []

/-- `s.split(":", 1)` restricted to the case used by the code: split at the
first colon when one exists. -/
def splitAtFirst (c : Char) : List Char → Option (List Char × List Char)
  | [] => none
  | x :: xs =>
    if x = c then some ([], xs)
    else (splitAtFirst c xs).map (fun p => (x :: p.1, p.2))

/-- The `host` port stripping of ocr_client.py:152-157: if the value contains
a colon and the part after the first colon is `"80"` or `"443"`, keep only the
part before it. -/
def stripHostPort (v : String) : String :=
  match splitAtFirst ':' v.data with
  | some (h, p) => if (⟨p⟩ : String) = "80" || (⟨p⟩ : String) = "443" then ⟨h⟩ else v
  | none => v

/-- Apply the port stripping to the `host` entry of the signed-header dict. -/
def applyHostStrip (signed : List (String × String)) : List (String × String) :=
  signed.map (fun kv => if kv.1 = "host" then (kv.1, stripHostPort kv.2) else kv)

/-- `sorted(signed_headers)`: the dict's keys in Python string order. -/
def sortedKeys (signed : List (String × String)) : List String :=
  (keysOf signed).insertionSort pyStrLe

/-- ocr_client.py:159-161 — `f"{key}:{signed_headers[key]}\n"` joined over the
sorted keys. -/
def signed_header_lines (signed : List (String × String)) : String :=
  String.join ((sortedKeys signed).map
    (fun k => k ++ ":" ++ (lookupStr signed k).getD "" ++ "\n"))

/-- ocr_client.py:162 — `";".join(sorted(signed_headers))`. -/
def signed_headers_string (signed : List (String × String)) : String :=
  String.intercalate ";" (sortedKeys signed)

/-! ### `get_signing_key` and `sign_request` (ocr_client.py:118-189) -/

/-- Embedding of `get_signing_key` (ocr_client.py:118-122): chain the secret
key through date, region, service and the literal `"request"` by four
HMAC-SHA256 applications. -/
def get_signing_key (crypto : Crypto) (secret_key date region service : String) : String :=
  crypto.hmacDig (crypto.hmacDig (crypto.hmacDig (crypto.hmacDig secret_key date) region) service) "request"

/-- ocr_client.py:140-145 — the headers after `sign_request` has attached
`X-Date`, `X-Content-Sha256` and (when the token is truthy)
`X-Security-Token`. -/
def augmentHeaders (crypto : Crypto) (headers : List (String × String)) (body : String)
    (session_token : Option String) (format_date : String) : List (String × String) :=
  let h1 := upsert headers "X-Date" format_date
  let h2 := upsert h1 "X-Content-Sha256" (crypto.sha256hex body)
  match session_token with
  | some t => if t = "" then h2 else upsert h2 "X-Security-Token" t
  | none => h2

/-- The signed-header dict of ocr_client.py:147-157 (selection, lower-casing,
port stripping) computed from the augmented headers. -/
def signedHeadersOf (crypto : Crypto) (headers : List (String × String)) (body : String)
    (session_token : Option String) (format_date : String) : List (String × String) :=
  applyHostStrip (collectSignedHeaders (augmentHeaders crypto headers body session_token format_date))

/-- The `canonical_request` string of ocr_client.py:163-172. -/
def canonicalRequestOf (crypto : Crypto) (path method : String)
    (headers : List (String × String)) (body : String) (query : List (String × String))
    (session_token : Option String) (format_date : String) : String :=
  let path := if path = "" then "/" else path
  let signed := signedHeadersOf crypto headers body session_token format_date
  String.intercalate "\n"
    [method, path, canonical_query query, signed_header_lines signed,
     signed_headers_string signed, crypto.sha256hex body]

/-- `format_date[:8]`. -/
def date8 (format_date : String) : String := ⟨format_date.data.take 8⟩

/-- The `credential_scope` string of ocr_client.py:173. -/
def credentialScopeOf (region service format_date : String) : String :=
  String.intercalate "/" [date8 format_date, region, service, "request"]

/-- The `signing_str` of ocr_client.py:174-181. -/
def signingStrOf (crypto : Crypto) (path method : String)
    (headers : List (String × String)) (body : String) (query : List (String × String))
    (region service : String) (session_token : Option String) (format_date : String) : String :=
  String.intercalate "\n"
    ["HMAC-SHA256", format_date, credentialScopeOf region service format_date,
     crypto.sha256hex (canonicalRequestOf crypto path method headers body query session_token format_date)]

/-- The hex `signature` of ocr_client.py:182-183. -/
def signatureOf (crypto : Crypto) (path method : String)
    (headers : List (String × String)) (body : String) (query : List (String × String))
    (secret_key region service : String) (session_token : Option String)
    (format_date : String) : String :=
  crypto.hmacHex (get_signing_key crypto secret_key (date8 format_date) region service)
    (signingStrOf crypto path method headers body query region service session_token format_date)

/-- Embedding of `sign_request` (ocr_client.py:125-189).  The Python function
mutates its `headers` dict in place; the embedding returns the final dict.
The nondeterministic `datetime.utcnow()` timestamp is the explicit
`format_date` argument. -/
def sign_request (crypto : Crypto) (path method : String)
    (headers : List (String × String)) (body : String) (query : List (String × String))
    (access_key secret_key region service : String) (session_token : Option String)
    (format_date : String) : List (String × String) :=
  let headers' := augmentHeaders crypto headers body session_token format_date
  let signed := signedHeadersOf crypto headers body session_token format_date
  upsert headers' "Authorization"
    ("HMAC-SHA256 " ++ "Credential=" ++ access_key ++ "/" ++
      credentialScopeOf region service format_date ++ ", " ++
      "SignedHeaders=" ++ signed_headers_string signed ++ ", " ++
      "Signature=" ++
      signatureOf crypto path method headers body query secret_key region service session_token format_date)

/-- The Authorization value produced by `sign_request`. -/
def authorizationOf (crypto : Crypto) (path method : String)
    (headers : List (String × String)) (body : String) (query : List (String × String))
    (access_key secret_key region service : String) (session_token : Option String)
    (format_date : String) : Option String :=
  lookupStr
    (sign_request crypto path method headers body query access_key secret_key region service
      session_token format_date)
    "Authorization"

/-! ### main.py — shared helpers -/

/-- Python's `str.strip()` whitespace set, restricted to the ASCII whitespace
characters that can occur here. -/
def pyIsSpace (c : Char) : Bool :=
  c = ' ' || c = '\t' || c = '\n' || c = '\x0d' || c = '\x0b' || c = '\x0c'

/-- Embedding of Python `s.strip()`. -/
def pyStrip (s : String) : String :=
  ⟨(s.data.dropWhile pyIsSpace).reverse.dropWhile pyIsSpace |>.reverse⟩

/-- `sorted(...)` on a list of strings (Python code-point order). -/
def sortStrings (l : List String) : List String := l.insertionSort pyStrLe

/-- Embedding of `hash_text` (main.py:259-260). -/
def hash_text (crypto : Crypto) (text : String) : String := crypto.sha256hex text

/-- Generation settings, the fields of `get_doubao_settings` the cache key
depends on (main.py:207-215). -/
structure DoubaoSettings where
  model : String
  reasoning_effort : String
deriving DecidableEq

/-- Embedding of `model_signature` (main.py:263-264). -/
def model_signature (crypto : Crypto) (s : DoubaoSettings) : String :=
  hash_text crypto (s.model ++ "|" ++ s.reasoning_effort)

/-- One entry of the `ai_docs` list (main.py:629-665): an input path and the
declared output paths. -/
structure AiDoc where
  input : String
  output_docx : Option String
  output_doc : Option String
  output_md : Option String
deriving DecidableEq

/-- The filesystem as the pipeline observes it at the start of the run:
which paths exist and what text `read_text` returns for them. -/
structure Fs where
  pathExists : String → Bool
  readText : String → String

/-- main.py:473-481 — the non-`None` declared outputs, in source order. -/
def outputPaths (doc : AiDoc) : List String :=
  [doc.output_docx, doc.output_doc, doc.output_md].filterMap id

/-- main.py:484 — `f"{source_path}|{signature}"`. -/
def cacheKeyOf (doc : AiDoc) (signature : String) : String :=
  doc.input ++ "|" ++ signature

/-! ### The cache-gated task construction (main.py:463-495) -/

/-- A scheduled generation task (the dict appended at main.py:490-495). -/
structure TaskSpec where
  doc : AiDoc
  content : String
  contentHash : String
  cache_key : String
deriving DecidableEq

/-- The loop body of main.py:464-495 for one `doc`: `none` means the `doc` is
skipped (one of the `continue` branches), `some t` means a task is scheduled.
`index` is the persisted cache (`cache_key ↦ stored hash`). -/
def scheduleDecision (crypto : Crypto) (fs : Fs) (index : List (String × String))
    (signature : String) (doc : AiDoc) : Option TaskSpec :=
  if ¬ fs.pathExists doc.input then none
  else
    let content := pyStrip (fs.readText doc.input)
    if content = "" then none
    else
      let outs := outputPaths doc
      if outs = [] then none
      else
        let cache_key := cacheKeyOf doc signature
        let content_hash := hash_text crypto content
        let output_missing := outs.any (fun p => ¬ fs.pathExists p)
        if ¬ output_missing ∧ lookupStr index cache_key = some content_hash then none
        else some ⟨doc, content, content_hash, cache_key⟩

/-- The full `tasks` list built by the loop (skipped docs contribute nothing). -/
def buildTasks (crypto : Crypto) (fs : Fs) (index : List (String × String))
    (signature : String) (docs : List AiDoc) : List TaskSpec :=
  docs.filterMap (scheduleDecision crypto fs index signature)

/-! ### The retry loop `call_doubao` (main.py:503-518) -/

/-- Outcome of one invocation of the producer (`chat_completion`): a completion
string or a raised exception described by a message. -/
def Producer : Type := Nat → Except String String

/-- Embedding of the `while True` loop of `call_doubao` (main.py:504-518),
started at a given `attempt`.  The producer is indexed by the attempt number.
Returns the list of back-off sleeps performed (`time.sleep(backoff * 2**attempt)`),
the number of producer invocations, and the final outcome (`.error` = the
exception re-raised at main.py:516). -/
def callDoubaoFrom (producer : Producer) (retries : Nat) (backoff : ℚ) (attempt : Nat) :
    List ℚ × Nat × Except String String :=
  match producer attempt with
  | .ok v => ([], 1, .ok v)
  | .error e =>
    if h : retries ≤ attempt then ([], 1, .error e)
    else
      let rest := callDoubaoFrom producer retries backoff (attempt + 1)
      (backoff * 2 ^ attempt :: rest.1, 1 + rest.2.1, rest.2.2)
termination_by retries - attempt
decreasing_by
  omega

/-- `call_doubao` itself: the loop entered with `attempt = 0`. -/
def call_doubao (producer : Producer) (retries : Nat) (backoff : ℚ) :
    List ℚ × Nat × Except String String :=
  callDoubaoFrom producer retries backoff 0

/-! ### Result collection and output writing (main.py:520-578) -/

/-- One completed future as the `as_completed` loop observes it: the task it
was submitted for and either its value or the exception it raised. -/
structure Completed where
  task : TaskSpec
  outcome : Except String String

/-- The `as_completed` loop of main.py:531-552 in completion order: a failed
future prints and `continue`s, a successful one is appended to `results`. -/
def collectResults (completions : List Completed) : List (TaskSpec × String) :=
  completions.filterMap (fun c =>
    match c.outcome with
    | .ok v => some (c.task, v)
    | .error _ => none)

/-- The cache-index update performed by main.py:573-576 over the collected
results: `index[cache_key] = {hash, ...}` for each result, then saved. -/
def updateIndex (index : List (String × String)) (results : List (TaskSpec × String)) :
    List (String × String) :=
  results.foldl (fun idx r => upsert idx r.1.cache_key r.1.contentHash) index

/-- The value bound to the Python variable `response` when the `as_completed`
loop finishes: the value of the last successful future, in completion order
(a failed `future.result()` raises before assigning). -/
def lastResponse (completions : List Completed) : Option String :=
  ((collectResults completions).map (fun r => r.2)).getLast?

/-- The `.md` writes performed by the loop of main.py:554-576.  Faithful to the
source: `output_md.write_text(response, ...)` at main.py:558 reads the name
`response` *before* main.py:562 rebinds it to `result["response"]`, so each
`.md` file receives the value `response` carried over from the previous
iteration (for the first iteration, from the collection loop).  Returns the
list of `(path, text written)` pairs, given `response0`, the value of
`response` on entry. -/
def mdWrites (results : List (TaskSpec × String)) (response0 : String) :
    List (String × String) :=
  (results.foldl
    (fun (st : String × List (String × String)) r =>
      let writes :=
        match r.1.doc.output_md with
        | some p => st.2 ++ [(p, st.1)]
        | none => st.2
      (r.2, writes))
    (response0, [])).2

/-- The `.docx` writes of the same loop (main.py:563-564): these use
`response` *after* it has been rebound, i.e. the result's own value. -/
def docxWrites (results : List (TaskSpec × String)) : List (String × String) :=
  results.filterMap (fun r => r.1.doc.output_docx.map (fun p => (p, r.2)))

/-! ### OCR response handling (ocr_client.py:192-256) -/

/-- The parsed JSON body of an OCR response, with the fields
`extract_ocr_text` reads. -/
structure OcrResponse where
  code : Option Int
  message : Option String
  errorField : Option String
  lineTexts : List String

/-- How one OCR HTTP exchange can end, as `request_visual_ocr` distinguishes
the cases: an `HTTPError`, a `URLError`, a body that fails JSON parsing, or a
parsed response. -/
inductive OcrHttpResult where
  | httpError
  | urlError
  | badJson
  | parsed (resp : OcrResponse)

/-- Embedding of `request_visual_ocr`'s result (ocr_client.py:215-231):
`None` on any HTTP/network/parse failure, the parsed body otherwise. -/
def request_visual_ocr : OcrHttpResult → Option OcrResponse
  | .httpError => none
  | .urlError => none
  | .badJson => none
  | .parsed r => some r

/-- Embedding of `extract_ocr_text` (ocr_client.py:234-245): empty string
unless `code == 10000`, else the non-empty `line_texts` joined by newlines and
stripped. -/
def extract_ocr_text : Option OcrResponse → String
  | none => ""
  | some r =>
    if r.code = some 10000 then
      pyStrip (String.intercalate "\n" (r.lineTexts.filter (fun l => l ≠ "")))
    else ""

/-- Embedding of `ocr_image_path_to_text`'s tail (ocr_client.py:255-256):
`extract_ocr_text(response) if response else ""`. -/
def ocrCallText (h : OcrHttpResult) : String :=
  match request_visual_ocr h with
  | none => ""
  | some r => extract_ocr_text (some r)

/-- How one photo's worker future ends, as the `as_completed` loop of
main.py:377-383 observes it: either the OCR call completed (with whatever
HTTP outcome) or the worker raised. -/
inductive PhotoOutcome where
  | raised (msg : String)
  | completed (h : OcrHttpResult)

/-- The failure cases the claim enumerates for one photo: the worker raised,
the HTTP call failed, the network failed, the body was unparsable, or the
parsed response's `code` is not `10000`. -/
def ocrFailed : PhotoOutcome → Prop
  | .raised _ => True
  | .completed .httpError => True
  | .completed .urlError => True
  | .completed .badJson => True
  | .completed (.parsed r) => r.code ≠ some 10000

/-- main.py:377-383 — `results[index]` for one photo: the recognized text, or
`""` when the future raised. -/
def photoResult : PhotoOutcome → String
  | .raised _ => ""
  | .completed h => ocrCallText h

/-- The whole `results` array, index-associated to the photo list through
`future_map` (main.py:371-383). -/
def photoResults (outcomes : List PhotoOutcome) : List String :=
  outcomes.map photoResult

/-! ### The combined photo document and per-image files (main.py:284-302, 358-398) -/

/-- Embedding of `format_title_line` (main.py:179-183); `TITLE_WIDTH = 80`.
CPython's `str.center` with even width puts the shorter pad on the left. -/
def format_title_line (filename : String) : String :=
  let title := pyStrip filename
  if 80 ≤ title.data.length then title
  else
    let marg := 80 - title.data.length
    let left := marg / 2
    (⟨List.replicate left ' '⟩ : String) ++ title ++ ⟨List.replicate (marg - left) ' '⟩

/-- The candidate loop of `unique_name` (main.py:288-291).  `fuel` bounds the
search; the callers pass `used.length + 1`, enough for the loop to exit since
the candidates are pairwise distinct. -/
def uniqueNameLoop (base : String) (used : List String) : Nat → Nat → String
  | 0, i => base ++ "_" ++ toString i
  | fuel + 1, i =>
    let cand := if i = 0 then base else base ++ "_" ++ toString i
    if pyLower cand ∈ used then uniqueNameLoop base used fuel (i + 1) else cand

/-- Embedding of `unique_name` (main.py:284-292): returns the chosen name and
the updated `used_names` set (kept as a list of lower-cased names). -/
def unique_name (base_name : String) (used : List String) (fallback : String) :
    String × List String :=
  let base := if pyStrip base_name = "" then fallback else pyStrip base_name
  let cand := uniqueNameLoop base used (used.length + 1) 0
  (cand, used ++ [pyLower cand])

/-- Embedding of `resolve_output_text_file` (main.py:300-302). -/
def resolve_output_text_file (base_name : String) (used : List String) (folder : String) :
    String × List String :=
  let r := unique_name base_name used "text"
  (folder ++ "/" ++ r.1 ++ ".txt", r.2)

/-- `Path.stem`: the file name without its final extension. -/
def stemOf (name : String) : String :=
  match splitAtFirst '.' name.data.reverse with
  | some (_, revStem) => if revStem = [] then name else ⟨revStem.reverse⟩
  | none => name

/-- The directory `PHOTO_TEXT_DIR` (main.py:31), relative to the project. -/
def PHOTO_TEXT_DIR : String := "Output/text/photo_texts"

/-- The content of the combined photo document written by
main.py:385-393: per photo, a separator (except before the first), the
centered title line, a newline, then the recognized text (nothing when it is
empty). -/
def photoSection (p : Nat × (String × String)) : String :=
  (if p.1 = 0 then "" else "\n\n") ++ format_title_line p.2.1 ++ "\n" ++ p.2.2

def combinedPhotoDoc (photos : List String) (results : List String) : String :=
  String.join ((photos.zip results).enum.map photoSection)

/-- The per-image text-file writes of main.py:395-396, in order: each photo's
stem is uniquified against the `used_names` set and the photo's recognized
text (possibly empty) is written to that path. -/
def perImageStep (st : List String × List (String × String)) (p : String × String) :
    List String × List (String × String) :=
  let r := resolve_output_text_file (stemOf p.1) st.1 PHOTO_TEXT_DIR
  (r.2, st.2 ++ [(r.1, p.2)])

def perImageWrites (photos : List String) (results : List String) :
    List (String × String) :=
  ((photos.zip results).foldl perImageStep ([], [])).2

/-! ### The snapshot comparison in `main` (main.py:612-743) -/

/-- One entry of `prompt_docs` (main.py:618-628): the derived document's path
and the environment key holding its prompt. -/
structure PromptDoc where
  outputPath : String
  envKey : String

/-- The persisted snapshot as `load_snapshot` returns it: a JSON object that
may be missing any of its keys (missing/corrupt file gives `{}`, i.e. all
fields absent). -/
structure PrevSnapshot where
  pdf : Option (List String)
  word : Option (List String)
  photo : Option (List String)
  prompts : Option (List (String × Option String))

/-- The environment as `get_env_value` observes it (`none` = unset or blank). -/
def Env : Type := String → Option String

/-- Embedding of `get_doubao_settings` wrapped in the `try/except` of
main.py:666-669: `none` when `DOUBAO_MODEL` is missing. -/
def getDoubaoSettings (env : Env) : Option DoubaoSettings :=
  (env "DOUBAO_MODEL").map (fun m =>
    ⟨m, (env "DOUBAO_REASONING_EFFORT").getD "medium"⟩)

/-- main.py:670 — `{env_key: get_env_value(env_key) for _, _, env_key in prompt_docs}`. -/
def promptValues (env : Env) (promptDocs : List PromptDoc) : List (String × Option String) :=
  promptDocs.map (fun d => (d.envKey, env d.envKey))

/-- Lookup in a prompt dict. -/
def lookupPrompt (l : List (String × Option String)) (k : String) : Option (Option String) :=
  (l.find? (fun kv => kv.1 = k)).map (fun kv => kv.2)

/-- Python `dict ==` on the prompt dicts: same keys, same values, order
irrelevant. -/
def dictEqPrompts (a b : List (String × Option String)) : Bool :=
  a.all (fun kv => lookupPrompt b kv.1 = some kv.2) &&
    b.all (fun kv => lookupPrompt a kv.1 = some kv.2)

/-- main.py:679-683 — `inputs_changed`: any of the three sorted name lists
differs from the persisted one (a missing key also differs). -/
def inputsChanged (prev : PrevSnapshot) (pdf word photo : List String) : Bool :=
  prev.pdf ≠ some (sortStrings pdf) || prev.word ≠ some (sortStrings word) ||
    prev.photo ≠ some (sortStrings photo)

/-- main.py:684 — `prompts_changed = prompt_values != (prev_prompts or {})`. -/
def promptsChanged (prev : PrevSnapshot) (env : Env) (promptDocs : List PromptDoc) : Bool :=
  ¬ dictEqPrompts (promptValues env promptDocs) (prev.prompts.getD [])

/-- main.py:685 — any prompt-derived document missing on disk. -/
def promptDocsMissing (fs : Fs) (promptDocs : List PromptDoc) : Bool :=
  promptDocs.any (fun d => ¬ fs.pathExists d.outputPath)

/-- main.py:686-695 — any declared AI output missing on disk. -/
def aiDocsMissing (fs : Fs) (aiDocs : List AiDoc) : Bool :=
  aiDocs.any (fun d => (outputPaths d).any (fun p => ¬ fs.pathExists p))

/-- main.py:696-711 — `ai_inputs_changed`: with settings available, some AI
doc whose input exists with non-empty stripped content has a cache entry whose
stored hash differs from the current content hash. -/
def aiInputsChanged (crypto : Crypto) (fs : Fs) (aiIndex : List (String × String))
    (aiSettings : Option DoubaoSettings) (aiDocs : List AiDoc) : Bool :=
  match aiSettings with
  | none => false
  | some s =>
    let signature := model_signature crypto s
    aiDocs.any (fun doc =>
      fs.pathExists doc.input &&
        pyStrip (fs.readText doc.input) ≠ "" &&
        lookupStr aiIndex (cacheKeyOf doc signature) ≠
          some (hash_text crypto (pyStrip (fs.readText doc.input))))

/-- The path `OUTPUT_MERGED_TXT` (main.py:35), relative to the project. -/
def OUTPUT_MERGED_TXT : String := "Output/text/combined_documents/综合合并文档.txt"

/-- What one run of `main` does after the snapshot comparison: the early
no-change return of main.py:712-720, or a run whose `extraction` flag is the
condition of main.py:722 (cleanup plus re-extraction of all three buckets and
re-merge) and whose `aiGeneration` flag is the condition of main.py:739. -/
inductive MainResult where
  | earlyExit
  | ran (extraction : Bool) (aiGeneration : Bool)
deriving DecidableEq

/-- Embedding of the decision structure of `main` (main.py:612-743). -/
def mainRun (crypto : Crypto) (fs : Fs) (env : Env) (prev : PrevSnapshot)
    (pdf word photo : List String) (promptDocs : List PromptDoc) (aiDocs : List AiDoc)
    (aiIndex : List (String × String)) : MainResult :=
  let aiSettings := getDoubaoSettings env
  let ic := inputsChanged prev pdf word photo
  let pc := promptsChanged prev env promptDocs
  let pm := promptDocsMissing fs promptDocs
  let am := aiDocsMissing fs aiDocs
  let ac := aiInputsChanged crypto fs aiIndex aiSettings aiDocs
  if ic = false ∧ pc = false ∧ pm = false ∧ am = false ∧ ac = false then
    .earlyExit
  else
    .ran (ic || ¬ fs.pathExists OUTPUT_MERGED_TXT) (ic || pc || pm || am || ac)

/-! ### Concrete evaluation fixtures

Small closed instances of the data model, used to evaluate the theorems on
concrete inputs. -/

/-- A filesystem for the cache-gate examples: `in.txt` and both outputs
exist; every file reads as `"memo"`. -/
def fsC4 : Fs := ⟨fun p => ["in.txt", "o.docx", "o.md"].contains p, fun _ => "memo"⟩

/-- An artifact with a `.docx` and a `.md` output. -/
def docC4 : AiDoc := ⟨"in.txt", some "o.docx", none, some "o.md"⟩

/-- A cache index holding the hash of the current content of `in.txt`. -/
def idxC4 : List (String × String) := [("in.txt|sig", cryptoRef.sha256hex "memo")]

/-- A filesystem for the empty-content examples: only `a.txt` exists and all
reads give `"c"`. -/
def fsC9 : Fs := ⟨fun p => p = "a.txt", fun _ => "c"⟩

/-- A schedulable artifact (its input exists, its output does not). -/
def docC9a : AiDoc := ⟨"a.txt", some "a.docx", none, none⟩

/-- An artifact whose input file does not exist. -/
def docC9b : AiDoc := ⟨"none.txt", some "n.docx", none, none⟩

/-- The task `generate_ai_documents` schedules for `docC9a` under `fsC9`. -/
def taskC9 : TaskSpec := ⟨docC9a, "c", cryptoRef.sha256hex "c", "a.txt|sig"⟩

/-- Photos for the OCR-failure example. -/
def photosC10 : List String := ["a.png", "b.png"]

/-- Outcomes for the OCR-failure example: the first image succeeds, the
second image's HTTP call fails. -/
def outcomesC10 : List PhotoOutcome :=
  [.completed (.parsed ⟨some 10000, none, none, ["hi"]⟩), .completed .httpError]

/-- Prompt documents for the snapshot examples: one derived document driven
by the `PROMPT_A` environment key. -/
def promptDocsC5 : List PromptDoc := [⟨"p.txt", "PROMPT_A"⟩]

/-- One AI artifact for the snapshot examples. -/
def aiDocsC5 : List AiDoc := [⟨"in.txt", some "o.docx", none, some "o.md"⟩]

/-- Environment for the unchanged-run example: a model is configured and the
prompt value matches the persisted snapshot. -/
def envC5 : Env := fun k =>
  if k = "DOUBAO_MODEL" then some "m"
  else if k = "PROMPT_A" then some "pa" else none

/-- A filesystem on which every path exists and every file reads `"body"`. -/
def fsC5 : Fs := ⟨fun _ => true, fun _ => "body"⟩

/-- A persisted snapshot matching the current run of the example. -/
def prevC5 : PrevSnapshot := ⟨some ["a.pdf"], some [], some [], some [("PROMPT_A", some "pa")]⟩

/-- The AI cache of the example, holding the current hash of `in.txt` under
the model signature of `envC5`. -/
def aiIndexC5 : List (String × String) := [("in.txt|S(m|medium)", "S(body)")]

/-- Environment for the prompt-drift example: no model, and `PROMPT_A` now
reads `"new"`. -/
def envC7 : Env := fun k => if k = "PROMPT_A" then some "new" else none

/-- Persisted snapshot for the prompt-drift example: empty buckets and the
old prompt value. -/
def prevC7 : PrevSnapshot := ⟨some [], some [], some [], some [("PROMPT_A", some "old")]⟩

/-! ## Order properties of the Python comparisons -/

theorem str_eq_of_data_eq {a b : String} (h : a.data = b.data) : a = b := by
  cases a; cases b; exact congrArg String.mk h

theorem strLeB_refl (as : List Char) : strLeB as as = true := by
  induction as with
  | nil => rfl
  | cons a as ih => simp [strLeB, ih]

theorem strLeB_total (as bs : List Char) : strLeB as bs = true ∨ strLeB bs as = true := by
  induction as generalizing bs with
  | nil => left; simp [strLeB]
  | cons a as ih =>
    cases bs with
    | nil => right; simp [strLeB]
    | cons b bs =>
      by_cases h1 : a.toNat < b.toNat
      · left; simp [strLeB, h1]
      · by_cases h2 : b.toNat < a.toNat
        · right; simp [strLeB, h2]
        · simpa [strLeB, h1, h2] using ih bs

theorem strLeB_antisymm {as bs : List Char} (h1 : strLeB as bs = true)
    (h2 : strLeB bs as = true) : as = bs := by
  induction as generalizing bs with
  | nil =>
    cases bs with
    | nil => rfl
    | cons b bs => simp [strLeB] at h2
  | cons a as ih =>
    cases bs with
    | nil => simp [strLeB] at h1
    | cons b bs =>
      by_cases hab : a.toNat < b.toNat
      · simp [strLeB, hab, Nat.lt_asymm hab] at h2
      · by_cases hba : b.toNat < a.toNat
        · simp [strLeB, hab, hba] at h1
        · have hn : a.toNat = b.toNat := by omega
          have hc : a = b := Char.ext (UInt32.ext hn)
          simp only [strLeB, if_neg hab, if_neg hba] at h1 h2
          rw [hc, ih h1 h2]

theorem strLeB_trans {as bs cs : List Char} (h1 : strLeB as bs = true)
    (h2 : strLeB bs cs = true) : strLeB as cs = true := by
  induction as generalizing bs cs with
  | nil => simp [strLeB]
  | cons a as ih =>
    cases bs with
    | nil => simp [strLeB] at h1
    | cons b bs =>
      cases cs with
      | nil => simp [strLeB] at h2
      | cons c cs =>
        by_cases hba : b.toNat < a.toNat
        · simp [strLeB, show ¬ a.toNat < b.toNat by omega, hba] at h1
        · by_cases hcb : c.toNat < b.toNat
          · simp [strLeB, show ¬ b.toNat < c.toNat by omega, hcb] at h2
          · by_cases hac : a.toNat < c.toNat
            · simp [strLeB, hac]
            · have h1' : strLeB as bs = true := by
                simpa [strLeB, show ¬ a.toNat < b.toNat by omega, hba] using h1
              have h2' : strLeB bs cs = true := by
                simpa [strLeB, show ¬ b.toNat < c.toNat by omega, hcb] using h2
              simp [strLeB, hac, show ¬ c.toNat < a.toNat by omega, ih h1' h2']

theorem pyStrLe_antisymm_str {a b : String} (h1 : strLeB a.data b.data = true)
    (h2 : strLeB b.data a.data = true) : a = b :=
  str_eq_of_data_eq (strLeB_antisymm h1 h2)

instance : IsTotal String pyStrLe where
  total a b := strLeB_total a.data b.data

instance : IsTrans String pyStrLe where
  trans a b c h1 h2 := @strLeB_trans a.data b.data c.data h1 h2

instance : IsAntisymm String pyStrLe where
  antisymm a b h1 h2 := pyStrLe_antisymm_str h1 h2

instance : IsTotal (String × String) pairLe where
  total a b := by
    unfold pairLe pairLeB
    by_cases h : a.1 = b.1
    · rw [if_pos h, if_pos h.symm]
      exact strLeB_total a.2.data b.2.data
    · rw [if_neg h, if_neg (fun e => h e.symm)]
      exact strLeB_total a.1.data b.1.data

instance : IsAntisymm (String × String) pairLe where
  antisymm a b h1 h2 := by
    unfold pairLe pairLeB at h1 h2
    by_cases h : a.1 = b.1
    · rw [if_pos h] at h1
      rw [if_pos h.symm] at h2
      exact Prod.ext h (pyStrLe_antisymm_str h1 h2)
    · rw [if_neg h] at h1
      rw [if_neg (fun e => h e.symm)] at h2
      exact absurd (pyStrLe_antisymm_str h1 h2) h

instance : IsTrans (String × String) pairLe where
  trans a b c h1 h2 := by
    unfold pairLe pairLeB at h1 h2 ⊢
    by_cases hab : a.1 = b.1 <;> by_cases hbc : b.1 = c.1
    · rw [if_pos hab] at h1
      rw [if_pos hbc] at h2
      rw [if_pos (hab.trans hbc)]
      exact strLeB_trans h1 h2
    · rw [if_neg hbc] at h2
      rw [if_neg (fun e => hbc (hab.symm.trans e)), hab]
      exact h2
    · rw [if_neg hab] at h1
      rw [if_neg (fun e => hab (e.trans hbc.symm)), ← hbc]
      exact h1
    · rw [if_neg hab] at h1
      rw [if_neg hbc] at h2
      by_cases hac : a.1 = c.1
      · rw [← hac] at h2
        exact absurd (pyStrLe_antisymm_str h1 h2) hab
      · rw [if_neg hac]
        exact strLeB_trans h1 h2

/-! ## Association-list (Python dict) lemmas -/

theorem lookupStr_cons (x : String × String) (l : List (String × String)) (k : String) :
    lookupStr (x :: l) k = if x.1 = k then some x.2 else lookupStr l k := by
  by_cases h : x.1 = k <;> simp [lookupStr, List.find?_cons, h]

theorem lookupStr_append (l1 l2 : List (String × String)) (k : String) :
    lookupStr (l1 ++ l2) k = (lookupStr l1 k).or (lookupStr l2 k) := by
  unfold lookupStr
  rw [List.find?_append]
  cases l1.find? (fun kv => kv.1 = k) <;> simp

theorem lookupStr_singleton (k v k' : String) :
    lookupStr [(k, v)] k' = if k = k' then some v else none := by
  by_cases h : k = k' <;>
    simp [lookupStr, List.find?_cons, List.find?_nil, h]

theorem lookupStr_eq_none_of_any_false {l : List (String × String)} {k : String}
    (h : l.any (fun kv => kv.1 = k) = false) : lookupStr l k = none := by
  unfold lookupStr
  rw [List.find?_eq_none.mpr, Option.map_none']
  intro x hx hp
  exact (List.any_eq_false.mp h) x hx hp

theorem lookup_map_replace (l : List (String × String)) (k v k' : String) :
    lookupStr (l.map (fun kv => if kv.1 = k then (k, v) else kv)) k' =
      if k' = k then (if l.any (fun kv => kv.1 = k) then some v else none)
      else lookupStr l k' := by
  induction l with
  | nil =>
    by_cases h : k' = k <;> simp [lookupStr, h]
  | cons x l ih =>
    by_cases hx : x.1 = k
    · by_cases hk : k' = k
      · subst hk
        simp [List.map_cons, hx, lookupStr_cons, List.any_cons]
      · have h1 : ¬ (k = k') := fun e => hk e.symm
        have h2 : ¬ (x.1 = k') := by rw [hx]; exact h1
        simp [List.map_cons, hx, lookupStr_cons, hk, h1, h2, ih]
    · by_cases hk : k' = k
      · subst hk
        have hd : decide (x.1 = k') = false := by simp [hx]
        rw [List.map_cons, if_neg hx, lookupStr_cons, if_neg hx, ih, if_pos rfl,
          List.any_cons, hd, Bool.false_or]
        rw [if_pos rfl]
      · by_cases hxk : x.1 = k'
        · simp [List.map_cons, hx, lookupStr_cons, hk, hxk, ih]
        · simp [List.map_cons, hx, lookupStr_cons, hk, hxk, ih]

theorem lookup_upsert (l : List (String × String)) (k v k' : String) :
    lookupStr (upsert l k v) k' = if k' = k then some v else lookupStr l k' := by
  unfold upsert
  by_cases hany : l.any (fun kv => kv.1 = k) = true
  · rw [if_pos hany, lookup_map_replace, if_pos hany]
  · rw [if_neg hany, lookupStr_append, lookupStr_singleton]
    by_cases hk : k' = k
    · subst hk
      rw [lookupStr_eq_none_of_any_false (Bool.not_eq_true _ ▸ hany), if_pos rfl]
      rfl
    · rw [if_neg (fun e => hk e.symm), if_neg hk]
      cases h : lookupStr l k' <;> rfl

/-! ## The cache gate (C4) -/

/-- C4: for an artifact whose source exists with non-empty stripped content
and which declares at least one output, the remote generation call is skipped
(`scheduleDecision` returns `none`) if and only if every declared output path
exists on disk and the cache entry stored under `<sourceIdentity>|<modelSignature>`
equals the SHA-256 of the current source content; any missing output or hash
mismatch schedules the call. -/
theorem C4_cache_gate (crypto : Crypto) (fs : Fs) (index : List (String × String))
    (signature : String) (doc : AiDoc)
    (hex : fs.pathExists doc.input = true)
    (hne : pyStrip (fs.readText doc.input) ≠ "")
    (hout : outputPaths doc ≠ []) :
    scheduleDecision crypto fs index signature doc = none ↔
      ((∀ p ∈ outputPaths doc, fs.pathExists p = true) ∧
        lookupStr index (cacheKeyOf doc signature) =
          some (hash_text crypto (pyStrip (fs.readText doc.input)))) := by
  simp only [scheduleDecision]
  rw [if_neg (by simp [hex]), if_neg hne, if_neg hout]
  constructor
  · intro hnone
    split at hnone
    · rename_i hc
      refine ⟨?_, hc.2⟩
      intro p hp
      by_contra hpe
      exact hc.1 (by
        simp only [List.any_eq_true, decide_eq_true_eq]
        exact ⟨p, hp, by simpa using hpe⟩)
    · exact absurd hnone (by simp)
  · intro hD
    rw [if_pos ?_]
    refine ⟨?_, hD.2⟩
    intro hany
    obtain ⟨p, hp, hnp⟩ := List.any_eq_true.mp hany
    simp only [decide_eq_true_eq] at hnp
    exact hnp (hD.1 p hp)

/-- C4 witness: a concrete cache hit, through `C4_cache_gate`. -/
theorem C4_cache_gate_witness :
    scheduleDecision cryptoRef fsC4 idxC4 "sig" docC4 = none ↔
      ((∀ p ∈ outputPaths docC4, fsC4.pathExists p = true) ∧
        lookupStr idxC4 (cacheKeyOf docC4 "sig") =
          some (hash_text cryptoRef (pyStrip (fsC4.readText docC4.input)))) :=
  C4_cache_gate cryptoRef fsC4 idxC4 "sig" docC4 (by decide) (by decide) (by decide)

/-! ## Task construction and cache writing (C9) -/

theorem scheduleDecision_some {crypto : Crypto} {fs : Fs} {index : List (String × String)}
    {signature : String} {doc : AiDoc} {t : TaskSpec}
    (h : scheduleDecision crypto fs index signature doc = some t) :
    t.doc = doc ∧ fs.pathExists doc.input = true ∧
      pyStrip (fs.readText doc.input) ≠ "" ∧ t.cache_key = cacheKeyOf doc signature := by
  simp only [scheduleDecision] at h
  split at h
  · exact absurd h (by simp)
  · rename_i h1
    split at h
    · exact absurd h (by simp)
    · rename_i h2
      split at h
      · exact absurd h (by simp)
      · split at h
        · exact absurd h (by simp)
        · injection h with h'
          subst h'
          exact ⟨rfl, by simpa using h1, h2, rfl⟩

theorem buildTasks_mem {crypto : Crypto} {fs : Fs} {index : List (String × String)}
    {signature : String} {docs : List AiDoc} {t : TaskSpec}
    (h : t ∈ buildTasks crypto fs index signature docs) :
    fs.pathExists t.doc.input = true ∧ pyStrip (fs.readText t.doc.input) ≠ "" ∧
      t.cache_key = cacheKeyOf t.doc signature := by
  unfold buildTasks at h
  obtain ⟨d, _, hsd⟩ := List.mem_filterMap.mp h
  obtain ⟨hdoc, hex, hne, hkey⟩ := scheduleDecision_some hsd
  subst hdoc
  exact ⟨hex, hne, hkey⟩

theorem cacheKey_inj_input {a b sig : String} (h : a ++ "|" ++ sig = b ++ "|" ++ sig) :
    a = b := by
  have hd := congrArg String.data h
  simp only [String.data_append] at hd
  have h1 : a.data ++ "|".data = b.data ++ "|".data := List.append_cancel_right hd
  exact str_eq_of_data_eq (List.append_cancel_right h1)

theorem mem_collectResults {completions : List Completed} {r : TaskSpec × String}
    (h : r ∈ collectResults completions) :
    ∃ c ∈ completions, c.task = r.1 ∧ c.outcome = .ok r.2 := by
  unfold collectResults at h
  obtain ⟨c, hc, hm⟩ := List.mem_filterMap.mp h
  cases ho : c.outcome with
  | ok v =>
    rw [ho] at hm
    simp only [Option.some_inj] at hm
    exact ⟨c, hc, by rw [← hm], by rw [ho, ← hm]⟩
  | error e =>
    rw [ho] at hm
    cases hm

theorem lookup_updateIndex_of_not_mem (index : List (String × String))
    (results : List (TaskSpec × String)) (k : String)
    (h : ∀ r ∈ results, r.1.cache_key ≠ k) :
    lookupStr (updateIndex index results) k = lookupStr index k := by
  induction results generalizing index with
  | nil => rfl
  | cons r rs ih =>
    unfold updateIndex at ih ⊢
    rw [List.foldl_cons, ih _ (fun x hx => h x (List.mem_cons_of_mem _ hx)),
      lookup_upsert, if_neg (fun e => h r (List.mem_cons_self _ _) e.symm)]

/-- C9: an artifact whose source file is missing or whose stripped source
content is empty is never scheduled (no task, hence no remote call); no task
for its input path ever exists; the cache-index entry under its key is
unchanged by the run; and every cache-index entry the run changes belongs to a
successfully completed result. -/
theorem C9_empty_never_cached (crypto : Crypto) (fs : Fs) (index : List (String × String))
    (signature : String) (docs : List AiDoc) (doc : AiDoc)
    (completions : List Completed)
    (hbad : fs.pathExists doc.input = false ∨ pyStrip (fs.readText doc.input) = "")
    (hcc : ∀ c ∈ completions, c.task ∈ buildTasks crypto fs index signature docs) :
    scheduleDecision crypto fs index signature doc = none ∧
    (∀ t ∈ buildTasks crypto fs index signature docs, t.doc.input ≠ doc.input) ∧
    lookupStr (updateIndex index (collectResults completions)) (cacheKeyOf doc signature) =
      lookupStr index (cacheKeyOf doc signature) ∧
    (∀ k, lookupStr (updateIndex index (collectResults completions)) k ≠ lookupStr index k →
      ∃ r ∈ collectResults completions, r.1.cache_key = k) := by
  have hne_input : ∀ t ∈ buildTasks crypto fs index signature docs, t.doc.input ≠ doc.input := by
    intro t ht heq
    obtain ⟨hex, hne, _⟩ := buildTasks_mem ht
    rcases hbad with hb | hb
    · rw [heq, hb] at hex
      cases hex
    · rw [heq, hb] at hne
      exact hne rfl
  refine ⟨?_, hne_input, ?_, ?_⟩
  · simp only [scheduleDecision]
    rcases hbad with hb | hb
    · rw [if_pos (by simp [hb])]
    · by_cases hpe : fs.pathExists doc.input = true
      · rw [if_neg (by simp [hpe]), if_pos hb]
      · rw [if_pos (by simpa using hpe)]
  · apply lookup_updateIndex_of_not_mem
    intro r hr hkey
    obtain ⟨c, hc, hct, _⟩ := mem_collectResults hr
    have hmem := hcc c hc
    rw [hct] at hmem
    obtain ⟨_, _, hk⟩ := buildTasks_mem hmem
    rw [hk] at hkey
    exact hne_input _ hmem (cacheKey_inj_input hkey)
  · intro k hk
    by_contra hno
    push_neg at hno
    exact hk (lookup_updateIndex_of_not_mem _ _ _ hno)

/-- C9 witness: a concrete run with one schedulable artifact and one whose
input is missing, through `C9_empty_never_cached`. -/
theorem C9_empty_never_cached_witness :
    scheduleDecision cryptoRef fsC9 [] "sig" docC9b = none ∧
    (∀ t ∈ buildTasks cryptoRef fsC9 [] "sig" [docC9a, docC9b], t.doc.input ≠ docC9b.input) ∧
    lookupStr (updateIndex [] (collectResults [⟨taskC9, .ok "R"⟩])) (cacheKeyOf docC9b "sig") =
      lookupStr [] (cacheKeyOf docC9b "sig") ∧
    (∀ k, lookupStr (updateIndex [] (collectResults [⟨taskC9, .ok "R"⟩])) k ≠ lookupStr [] k →
      ∃ r ∈ collectResults [⟨taskC9, .ok "R"⟩], r.1.cache_key = k) :=
  C9_empty_never_cached cryptoRef fsC9 [] "sig" [docC9a, docC9b] docC9b
    [⟨taskC9, .ok "R"⟩] (by decide) (by decide)

/-! ## Retry exhaustion (C6) -/

theorem callDoubaoFrom_fail (producer : Producer) (retries : Nat) (backoff : ℚ)
    (hfail : ∀ n v, producer n ≠ .ok v) :
    ∀ d attempt, retries - attempt = d → attempt ≤ retries →
      ∃ e, producer retries = .error e ∧
        callDoubaoFrom producer retries backoff attempt =
          ((List.range' attempt d).map (fun i => backoff * 2 ^ i), d + 1, .error e) := by
  intro d
  induction d with
  | zero =>
    intro attempt hd hle
    have ha : attempt = retries := by omega
    subst ha
    cases hp : producer attempt with
    | ok v => exact absurd hp (hfail _ _)
    | error e =>
      refine ⟨e, ?_, ?_⟩
      · first
        | exact hp
        | rfl
      · rw [callDoubaoFrom, hp]
        simp [List.range']
  | succ d ih =>
    intro attempt hd hle
    obtain ⟨e, he, hrec⟩ := ih (attempt + 1) (by omega) (by omega)
    refine ⟨e, he, ?_⟩
    rw [callDoubaoFrom]
    cases hp : producer attempt with
    | ok v => exact absurd hp (hfail _ _)
    | error e' =>
      simp only [hp]
      rw [dif_neg (by omega)]
      simp only [hrec, List.range', List.map_cons]
      have hnum : 1 + (d + 1) = d + 1 + 1 := by omega
      rw [hnum]

theorem range_pow_sum (backoff : ℚ) (n : Nat) :
    ((List.range n).map (fun i => backoff * 2 ^ i)).sum = backoff * (2 ^ n - 1) := by
  induction n with
  | zero => simp
  | succ n ih =>
    rw [List.range_succ, List.map_append, List.sum_append, ih]
    simp only [List.map_cons, List.map_nil, List.sum_cons, List.sum_nil]
    ring

/-- C6: a producer that fails on every attempt is invoked `retries + 1` times
by the `call_doubao` loop, with back-off sleeps `backoff * 2 ^ i` for
`i = 0, …, retries - 1` between consecutive invocations, totalling
`backoff * (2 ^ retries - 1)`; the last exception is re-raised as the loop's
outcome, and in the collection loop a unit appears among the results exactly
when its own future succeeded — failed siblings are simply skipped. -/
theorem C6_retry_exhaustion (producer : Producer) (retries : Nat) (backoff : ℚ)
    (hfail : ∀ n v, producer n ≠ .ok v) :
    ∃ e, producer retries = .error e ∧
      call_doubao producer retries backoff =
        ((List.range retries).map (fun i => backoff * 2 ^ i), retries + 1, .error e) ∧
      ((List.range retries).map (fun i => backoff * 2 ^ i)).sum = backoff * (2 ^ retries - 1) ∧
      (∀ (completions : List Completed) (t : TaskSpec) (v : String),
        (t, v) ∈ collectResults completions ↔
          ∃ c ∈ completions, c.task = t ∧ c.outcome = .ok v) := by
  obtain ⟨e, he, hrun⟩ :=
    callDoubaoFrom_fail producer retries backoff hfail retries 0 (by omega) (by omega)
  refine ⟨e, he, ?_, range_pow_sum backoff retries, ?_⟩
  · unfold call_doubao
    rw [hrun, List.range_eq_range']
  · intro completions t v
    constructor
    · intro h
      obtain ⟨c, hc, h1, h2⟩ := mem_collectResults h
      exact ⟨c, hc, h1, h2⟩
    · rintro ⟨c, hc, h1, h2⟩
      refine List.mem_filterMap.mpr ⟨c, hc, ?_⟩
      rw [h2]
      simp [h1]

/-- C6 witness: an always-failing producer with `retries = 2`,
`backoff = 3/2`, through `C6_retry_exhaustion`. -/
theorem C6_retry_exhaustion_witness :
    ∃ e, (fun _ => (.error "boom" : Except String String)) 2 = .error e ∧
      call_doubao (fun _ => .error "boom") 2 (3 / 2) =
        ((List.range 2).map (fun i => (3 / 2 : ℚ) * 2 ^ i), 2 + 1, .error e) ∧
      ((List.range 2).map (fun i => (3 / 2 : ℚ) * 2 ^ i)).sum = (3 / 2 : ℚ) * (2 ^ 2 - 1) ∧
      (∀ (completions : List Completed) (t : TaskSpec) (v : String),
        (t, v) ∈ collectResults completions ↔
          ∃ c ∈ completions, c.task = t ∧ c.outcome = .ok v) :=
  C6_retry_exhaustion (fun _ => .error "boom") 2 (3 / 2)
    (fun _ _ h => Except.noConfusion h)

/-! ## OCR failure isolation (C10) -/

theorem photoResult_empty {o : PhotoOutcome} (h : ocrFailed o) : photoResult o = "" := by
  cases o with
  | raised m => rfl
  | completed hr =>
    cases hr with
    | httpError => rfl
    | urlError => rfl
    | badJson => rfl
    | parsed r =>
      have h' : r.code ≠ some 10000 := h
      simp [photoResult, ocrCallText, request_visual_ocr, extract_ocr_text, h']

theorem perImage_foldl_snd (l : List (String × String)) :
    ∀ st : List String × List (String × String),
      ((l.foldl perImageStep st).2).map Prod.snd = st.2.map Prod.snd ++ l.map Prod.snd := by
  induction l with
  | nil => intro st; simp
  | cons p l ih =>
    intro st
    rw [List.foldl_cons, ih]
    simp [perImageStep]

/-- C10: a photo whose OCR call fails in any way (worker exception, HTTP
error, network error, unparsable JSON, or a response code other than 10000)
yields `""` as its recognized text; its per-image text file is still written,
with empty content; its titled section still appears in the combined photo
document with an empty body; and every image's result is a function of its
own outcome only. -/
theorem C10_ocr_failure_isolation (photos : List String) (outcomes : List PhotoOutcome)
    (i : Nat) (o : PhotoOutcome) (name : String)
    (hlen : outcomes.length = photos.length)
    (ho : outcomes[i]? = some o)
    (hf : ocrFailed o)
    (hname : photos[i]? = some name) :
    (photoResults outcomes)[i]? = some "" ∧
    (∃ p, (perImageWrites photos (photoResults outcomes))[i]? = some p ∧ p.2 = "") ∧
    combinedPhotoDoc photos (photoResults outcomes) =
      String.join ((photos.zip (photoResults outcomes)).enum.map photoSection) ∧
    ((photos.zip (photoResults outcomes)).enum.map photoSection)[i]? =
      some ((if i = 0 then "" else "\n\n") ++ format_title_line name ++ "\n") ∧
    (∀ j : Nat, (photoResults outcomes)[j]? = (outcomes[j]?).map photoResult) := by
  have hres : (photoResults outcomes)[i]? = some "" := by
    unfold photoResults
    rw [List.getElem?_map, ho]
    simp [photoResult_empty hf]
  have hzip : (photos.zip (photoResults outcomes))[i]? = some (name, "") :=
    List.getElem?_zip_eq_some.mpr ⟨hname, hres⟩
  refine ⟨hres, ?_, rfl, ?_, ?_⟩
  · have hmap : ((perImageWrites photos (photoResults outcomes)).map Prod.snd) =
        (photos.zip (photoResults outcomes)).map Prod.snd := by
      unfold perImageWrites
      rw [perImage_foldl_snd]
      simp
    have hsnd : ((perImageWrites photos (photoResults outcomes)).map Prod.snd)[i]? =
        some "" := by
      rw [hmap, List.getElem?_map, hzip]
      rfl
    rw [List.getElem?_map] at hsnd
    obtain ⟨p, hp, hps⟩ := Option.map_eq_some'.mp hsnd
    exact ⟨p, hp, hps⟩
  · rw [List.getElem?_map, List.getElem?_enum, hzip]
    simp [photoSection]
  · intro j
    unfold photoResults
    rw [List.getElem?_map]

/-- C10 witness: two photos, the second failing with an HTTP error, through
`C10_ocr_failure_isolation`. -/
theorem C10_ocr_failure_isolation_witness :
    (photoResults outcomesC10)[1]? = some "" ∧
    (∃ p, (perImageWrites photosC10 (photoResults outcomesC10))[1]? = some p ∧ p.2 = "") ∧
    combinedPhotoDoc photosC10 (photoResults outcomesC10) =
      String.join ((photosC10.zip (photoResults outcomesC10)).enum.map photoSection) ∧
    ((photosC10.zip (photoResults outcomesC10)).enum.map photoSection)[1]? =
      some ((if 1 = 0 then "" else "\n\n") ++ format_title_line "b.png" ++ "\n") ∧
    (∀ j : Nat, (photoResults outcomesC10)[j]? = (outcomesC10[j]?).map photoResult) :=
  C10_ocr_failure_isolation photosC10 outcomesC10 1 (.completed .httpError) "b.png"
    rfl rfl True.intro rfl

/-! ## Idempotent re-run (C5) and change detection (C7) -/

/-- C5: a run whose bucket name lists and prompt values match the persisted
snapshot, whose prompt-derived documents and AI outputs all exist on disk, and
whose AI cache entries all match the current input hashes, takes the
no-change early return of main.py:712-720: no extraction, no remote call, no
file modified. -/
theorem C5_unchanged_run_is_noop (crypto : Crypto) (fs : Fs) (env : Env)
    (prev : PrevSnapshot) (pdf word photo : List String) (promptDocs : List PromptDoc)
    (aiDocs : List AiDoc) (aiIndex : List (String × String))
    (h1 : prev.pdf = some (sortStrings pdf))
    (h2 : prev.word = some (sortStrings word))
    (h3 : prev.photo = some (sortStrings photo))
    (h4 : dictEqPrompts (promptValues env promptDocs) (prev.prompts.getD []) = true)
    (h5 : ∀ d ∈ promptDocs, fs.pathExists d.outputPath = true)
    (h6 : ∀ d ∈ aiDocs, ∀ p ∈ outputPaths d, fs.pathExists p = true)
    (h7 : ∀ s, getDoubaoSettings env = some s → ∀ d ∈ aiDocs,
      fs.pathExists d.input = true → pyStrip (fs.readText d.input) ≠ "" →
      lookupStr aiIndex (cacheKeyOf d (model_signature crypto s)) =
        some (hash_text crypto (pyStrip (fs.readText d.input)))) :
    mainRun crypto fs env prev pdf word photo promptDocs aiDocs aiIndex = .earlyExit := by
  have hic : inputsChanged prev pdf word photo = false := by
    unfold inputsChanged
    simp [h1, h2, h3]
  have hpc : promptsChanged prev env promptDocs = false := by
    unfold promptsChanged
    simp [h4]
  have hpm : promptDocsMissing fs promptDocs = false := by
    unfold promptDocsMissing
    rw [List.any_eq_false]
    intro d hd
    simp [h5 d hd]
  have ham : aiDocsMissing fs aiDocs = false := by
    unfold aiDocsMissing
    rw [List.any_eq_false]
    intro d hd
    intro hany
    obtain ⟨p, hp, hnp⟩ := List.any_eq_true.mp hany
    simp only [decide_eq_true_eq] at hnp
    exact hnp (h6 d hd p hp)
  have hac : aiInputsChanged crypto fs aiIndex (getDoubaoSettings env) aiDocs = false := by
    unfold aiInputsChanged
    cases hs : getDoubaoSettings env with
    | none => rfl
    | some s =>
      simp only []
      rw [List.any_eq_false]
      intro d hd
      intro hprd
      simp only [Bool.and_eq_true, decide_eq_true_eq] at hprd
      obtain ⟨⟨hpe, hne⟩, hneq⟩ := hprd
      exact hneq (h7 s hs d hd hpe hne)
  simp only [mainRun, hic, hpc, hpm, ham, hac]
  simp

/-- C5 witness: an unchanged concrete run, through `C5_unchanged_run_is_noop`. -/
theorem C5_unchanged_run_is_noop_witness :
    mainRun cryptoRef fsC5 envC5 prevC5 ["a.pdf"] [] [] promptDocsC5 aiDocsC5 aiIndexC5 =
      .earlyExit :=
  C5_unchanged_run_is_noop cryptoRef fsC5 envC5 prevC5 ["a.pdf"] [] [] promptDocsC5
    aiDocsC5 aiIndexC5 (by decide) (by decide) (by decide) (by decide) (by decide)
    (by decide)
    (by
      intro s hs
      have hs' : s = ⟨"m", "medium"⟩ := by
        have : some (⟨"m", "medium"⟩ : DoubaoSettings) = some s := hs
        exact (Option.some_inj.mp this).symm
      subst hs'
      decide)

/-- C7 counterexample: a run in which only a prompt value differs from the
persisted snapshot (bucket lists unchanged, merged document present) is not a
no-op, but it does *not* re-extract any bucket: `mainRun` yields
`.ran false true` — extraction is skipped while prompt/AI regeneration runs.
This refutes the claim that any prompt-value difference gates a full
re-extraction of all buckets. -/
theorem C7_prompt_change_no_reextraction_counterexample :
    promptsChanged prevC7 envC7 promptDocsC5 = true ∧
    inputsChanged prevC7 [] [] [] = false ∧
    fsC5.pathExists OUTPUT_MERGED_TXT = true ∧
    mainRun cryptoRef fsC5 envC7 prevC7 [] [] [] promptDocsC5 [] [] = .ran false true := by
  decide

/-- C7 amended: any difference in a bucket's file list or in a prompt value
prevents the no-change early return; a bucket-list difference triggers the
cleanup-and-re-extraction of all buckets (and AI regeneration); but a prompt
change alone, with bucket lists unchanged and the merged document present,
re-runs only the prompt documents and AI generation, not extraction. -/
theorem C7_amended_change_detection (crypto : Crypto) (fs : Fs) (env : Env)
    (prev : PrevSnapshot) (pdf word photo : List String) (promptDocs : List PromptDoc)
    (aiDocs : List AiDoc) (aiIndex : List (String × String)) :
    ((inputsChanged prev pdf word photo || promptsChanged prev env promptDocs) = true →
      mainRun crypto fs env prev pdf word photo promptDocs aiDocs aiIndex ≠ .earlyExit) ∧
    (inputsChanged prev pdf word photo = true →
      mainRun crypto fs env prev pdf word photo promptDocs aiDocs aiIndex = .ran true true) ∧
    (inputsChanged prev pdf word photo = false →
      promptsChanged prev env promptDocs = true →
      fs.pathExists OUTPUT_MERGED_TXT = true →
      mainRun crypto fs env prev pdf word photo promptDocs aiDocs aiIndex =
        .ran false true) := by
  refine ⟨?_, ?_, ?_⟩
  · intro h hcontra
    simp only [mainRun] at hcontra
    split at hcontra
    · rename_i hc
      rcases Bool.or_eq_true _ _ |>.mp h with h' | h'
      · rw [hc.1] at h'
        cases h'
      · rw [hc.2.1] at h'
        cases h'
    · cases hcontra
  · intro h
    simp only [mainRun, h]
    rw [if_neg (by simp)]
    simp
  · intro h1 h2 h3
    simp only [mainRun, h1, h2, h3]
    rw [if_neg (by simp)]
    simp

/-- C7 witness: the amended statement applied at the prompt-drift state,
through `C7_amended_change_detection`. -/
theorem C7_amended_change_detection_witness :
    mainRun cryptoRef fsC5 envC7 prevC7 [] [] [] promptDocsC5 [] [] = .ran false true :=
  (C7_amended_change_detection cryptoRef fsC5 envC7 prevC7 [] [] [] promptDocsC5 [] []).2.2
    (by decide) (by decide) (by decide)

/-! ## The output-writing loop (C3) -/

/-- C3 (code bug): with two tasks whose completions differ (`R1` for the
first-completed task, `R2` for the second), the `.md` files are written with
the *shifted* responses — the first result's `.md` receives the last
completion `R2` (the stale value of the Python variable `response` on loop
entry) and the second result's `.md` receives the first result's `R1` — while
the `.docx` files receive each task's own response.  The claim that every
declared output receives its own task's completion text fails for `.md`. -/
theorem C3_md_writes_shifted :
    lastResponse [⟨⟨⟨"i1.txt", some "o1.docx", none, some "o1.md"⟩, "c1", "h1", "k1"⟩, .ok "R1"⟩,
        ⟨⟨⟨"i2.txt", some "o2.docx", none, some "o2.md"⟩, "c2", "h2", "k2"⟩, .ok "R2"⟩] =
      some "R2" ∧
    mdWrites
        (collectResults
          [⟨⟨⟨"i1.txt", some "o1.docx", none, some "o1.md"⟩, "c1", "h1", "k1"⟩, .ok "R1"⟩,
           ⟨⟨⟨"i2.txt", some "o2.docx", none, some "o2.md"⟩, "c2", "h2", "k2"⟩, .ok "R2"⟩])
        "R2" =
      [("o1.md", "R2"), ("o2.md", "R1")] ∧
    docxWrites
        (collectResults
          [⟨⟨⟨"i1.txt", some "o1.docx", none, some "o1.md"⟩, "c1", "h1", "k1"⟩, .ok "R1"⟩,
           ⟨⟨⟨"i2.txt", some "o2.docx", none, some "o2.md"⟩, "c2", "h2", "k2"⟩, .ok "R2"⟩]) =
      [("o1.docx", "R1"), ("o2.docx", "R2")] ∧
    ("R2" : String) ≠ "R1" := by
  exact ⟨rfl, rfl, rfl, by decide⟩

/-! ## Signed-header selection and host-port stripping (C8) -/

theorem keysOf_upsert (l : List (String × String)) (k v n : String) :
    n ∈ keysOf (upsert l k v) ↔ n ∈ keysOf l ∨ n = k := by
  unfold upsert
  by_cases hany : l.any (fun kv => kv.1 = k) = true
  · rw [if_pos hany]
    have hkeys : keysOf (l.map fun kv => if kv.1 = k then (k, v) else kv) = keysOf l := by
      unfold keysOf
      rw [List.map_map]
      apply List.map_congr_left
      intro kv _
      by_cases h : kv.1 = k
      · simp [h]
      · simp [h]
    rw [hkeys]
    constructor
    · exact Or.inl
    · rintro (h | h)
      · exact h
      · subst h
        obtain ⟨kv, hkv, hdec⟩ := List.any_eq_true.mp hany
        simp only [decide_eq_true_eq] at hdec
        exact List.mem_map.mpr ⟨kv, hkv, hdec⟩
  · rw [if_neg hany]
    unfold keysOf
    rw [List.map_append]
    simp [List.mem_append]

theorem mem_keys_collect_aux (headers : List (String × String)) :
    ∀ (acc : List (String × String)) (n : String),
      (n ∈ keysOf (headers.foldl
        (fun acc kv =>
          if isSignedHeaderName kv.1 then upsert acc (pyLower kv.1) kv.2 else acc) acc)) ↔
      (n ∈ keysOf acc ∨
        ∃ kv ∈ headers, isSignedHeaderName kv.1 = true ∧ pyLower kv.1 = n) := by
  induction headers with
  | nil =>
    intro acc n
    simp
  | cons kv rest ih =>
    intro acc n
    rw [List.foldl_cons]
    by_cases hsel : isSignedHeaderName kv.1 = true
    · rw [if_pos hsel, ih, keysOf_upsert]
      constructor
      · rintro ((h | h) | h)
        · exact Or.inl h
        · exact Or.inr ⟨kv, List.mem_cons_self _ _, hsel, h.symm⟩
        · obtain ⟨kv', hkv', hs, hl⟩ := h
          exact Or.inr ⟨kv', List.mem_cons_of_mem _ hkv', hs, hl⟩
      · rintro (h | h)
        · exact Or.inl (Or.inl h)
        · obtain ⟨kv', hkv', hs, hl⟩ := h
          rcases List.mem_cons.mp hkv' with he | hm
          · subst he
            exact Or.inl (Or.inr hl.symm)
          · exact Or.inr ⟨kv', hm, hs, hl⟩
    · rw [if_neg hsel, ih]
      constructor
      · rintro (h | h)
        · exact Or.inl h
        · obtain ⟨kv', hkv', hs, hl⟩ := h
          exact Or.inr ⟨kv', List.mem_cons_of_mem _ hkv', hs, hl⟩
      · rintro (h | h)
        · exact Or.inl h
        · obtain ⟨kv', hkv', hs, hl⟩ := h
          rcases List.mem_cons.mp hkv' with he | hm
          · subst he
            exact absurd hs hsel
          · exact Or.inr ⟨kv', hm, hs, hl⟩

theorem splitAtFirst_of_not_mem {h : List Char} {c : Char} (hh : c ∉ h) (p : List Char) :
    splitAtFirst c (h ++ c :: p) = some (h, p) := by
  induction h with
  | nil => simp [splitAtFirst]
  | cons x xs ih =>
    have hx : x ≠ c := fun e => hh (e ▸ List.mem_cons_self _ _)
    have hxs : c ∉ xs := fun m => hh (List.mem_cons_of_mem _ m)
    simp [splitAtFirst, hx, ih hxs]

theorem splitAtFirst_none {v : List Char} {c : Char} (hv : c ∉ v) :
    splitAtFirst c v = none := by
  induction v with
  | nil => rfl
  | cons x xs ih =>
    have hx : x ≠ c := fun e => hv (e ▸ List.mem_cons_self _ _)
    have hxs : c ∉ xs := fun m => hv (List.mem_cons_of_mem _ m)
    simp [splitAtFirst, hx, ih hxs]

theorem stripHostPort_no_colon (v : String) (hv : ':' ∉ v.data) : stripHostPort v = v := by
  unfold stripHostPort
  rw [splitAtFirst_none hv]

theorem stripHostPort_split (h p : String) (hh : ':' ∉ h.data) :
    stripHostPort (h ++ ":" ++ p) =
      if p = "80" ∨ p = "443" then h else h ++ ":" ++ p := by
  unfold stripHostPort
  have hd : (h ++ ":" ++ p).data = h.data ++ ':' :: p.data := by
    simp [String.data_append]
  rw [hd, splitAtFirst_of_not_mem hh]
  have hps : (⟨p.data⟩ : String) = p := rfl
  have hhs : (⟨h.data⟩ : String) = h := rfl
  show (if ((⟨p.data⟩ : String) = "80" || (⟨p.data⟩ : String) = "443") = true
      then (⟨h.data⟩ : String) else h ++ ":" ++ p) =
    if p = "80" ∨ p = "443" then h else h ++ ":" ++ p
  rw [hps, hhs]
  by_cases h80 : p = "80"
  · rw [if_pos (by simp [h80]), if_pos (Or.inl h80)]
  · by_cases h443 : p = "443"
    · rw [if_pos (by simp [h443]), if_pos (Or.inr h443)]
    · rw [if_neg (by simp [h80, h443]),
        if_neg (by rintro (e | e) <;> [exact h80 e; exact h443 e])]

theorem lookup_applyHostStrip (signed : List (String × String)) :
    lookupStr (applyHostStrip signed) "host" = (lookupStr signed "host").map stripHostPort ∧
    ∀ k, k ≠ "host" → lookupStr (applyHostStrip signed) k = lookupStr signed k := by
  induction signed with
  | nil => exact ⟨rfl, fun _ _ => rfl⟩
  | cons kv l ih =>
    constructor
    · unfold applyHostStrip at ih ⊢
      rw [List.map_cons]
      by_cases hk : kv.1 = "host"
      · rw [if_pos hk, lookupStr_cons, lookupStr_cons, if_pos hk]
        simp [hk]
      · rw [if_neg hk, lookupStr_cons, lookupStr_cons]
        rw [if_neg hk, if_neg hk]
        exact ih.1
    · intro k hkne
      unfold applyHostStrip at ih ⊢
      rw [List.map_cons]
      by_cases hk : kv.1 = "host"
      · simp only [if_pos hk, lookupStr_cons]
        rw [if_neg (fun (e : kv.1 = k) => hkne (e.symm.trans hk)),
          if_neg (fun (e : kv.1 = k) => hkne (e.symm.trans hk))]
        exact ih.2 k hkne
      · simp only [if_neg hk, lookupStr_cons]
        by_cases hek : kv.1 = k
        · rw [if_pos hek, if_pos hek]
        · rw [if_neg hek, if_neg hek]
          exact ih.2 k hkne

/-- C8: the signed-header dict built while signing contains exactly the
lower-cased names of those input headers literally named `Content-Type`,
`Content-Md5` or `Host`, or whose name starts with `X-`; and the `host`
value's port suffix is stripped precisely when the text after the first colon
is `"80"` or `"443"` (a value with no colon is untouched), which is what
`applyHostStrip` applies to the `host` entry and only to it. -/
theorem C8_signed_header_subset :
    (∀ (headers : List (String × String)) (n : String),
      n ∈ keysOf (collectSignedHeaders headers) ↔
        ∃ kv ∈ headers, isSignedHeaderName kv.1 = true ∧ pyLower kv.1 = n) ∧
    (∀ k : String, isSignedHeaderName k = true ↔
      (k = "Content-Type" ∨ k = "Content-Md5" ∨ k = "Host" ∨ pyStartsWith k "X-" = true)) ∧
    (∀ v : String, ':' ∉ v.data → stripHostPort v = v) ∧
    (∀ h p : String, ':' ∉ h.data →
      stripHostPort (h ++ ":" ++ p) = if p = "80" ∨ p = "443" then h else h ++ ":" ++ p) ∧
    (∀ signed : List (String × String),
      lookupStr (applyHostStrip signed) "host" =
        (lookupStr signed "host").map stripHostPort ∧
      ∀ k, k ≠ "host" → lookupStr (applyHostStrip signed) k = lookupStr signed k) := by
  refine ⟨?_, ?_, stripHostPort_no_colon, stripHostPort_split, lookup_applyHostStrip⟩
  · intro headers n
    have := mem_keys_collect_aux headers [] n
    unfold collectSignedHeaders
    rw [this]
    simp [keysOf]
  · intro k
    unfold isSignedHeaderName
    simp [or_assoc]

/-- C8 witness: the header set and port stripping evaluated on the request the
program sends, through `C8_signed_header_subset`. -/
theorem C8_signed_header_subset_witness :
    ("accept" ∈ keysOf (collectSignedHeaders
        [("Host", "visual.volcengineapi.com"), ("Content-Type", "application/x-www-form-urlencoded"),
         ("Accept", "application/json"), ("X-Date", "20261012T000000Z")]) ↔
      ∃ kv ∈ [("Host", "visual.volcengineapi.com"),
          ("Content-Type", "application/x-www-form-urlencoded"),
          ("Accept", "application/json"), ("X-Date", "20261012T000000Z")],
        isSignedHeaderName kv.1 = true ∧ pyLower kv.1 = "accept") ∧
    stripHostPort "visual.volcengineapi.com" = "visual.volcengineapi.com" ∧
    stripHostPort ("example.com" ++ ":" ++ "443") =
      (if ("443" : String) = "80" ∨ ("443" : String) = "443"
        then "example.com" else "example.com" ++ ":" ++ "443") :=
  ⟨C8_signed_header_subset.1 _ "accept",
    C8_signed_header_subset.2.2.1 _ (by decide),
    C8_signed_header_subset.2.2.2.1 "example.com" "443" (by decide)⟩

/-! ## Permutation invariance machinery (C1, C2) -/

theorem pairLe_key {a b : String × String} (h : pairLe a b) :
    strLeB a.1.data b.1.data = true := by
  unfold pairLe pairLeB at h
  by_cases he : a.1 = b.1
  · rw [he]
    exact strLeB_refl _
  · rwa [if_neg he] at h

theorem canonical_query_perm {q1 q2 : List (String × String)} (h : List.Perm q2 q1) :
    canonical_query q2 = canonical_query q1 := by
  simp only [canonical_query]
  have hp : sortPairs (q2.map (fun kv => (pyQuote kv.1, pyQuote kv.2))) =
      sortPairs (q1.map (fun kv => (pyQuote kv.1, pyQuote kv.2))) := by
    apply List.eq_of_perm_of_sorted (r := pairLe)
    · exact (List.perm_insertionSort pairLe _).trans
        ((h.map _).trans (List.perm_insertionSort pairLe _).symm)
    · exact List.sorted_insertionSort pairLe _
    · exact List.sorted_insertionSort pairLe _
  rw [hp]

theorem any_perm {l1 l2 : List (String × String)} (h : List.Perm l1 l2)
    (p : String × String → Bool) : l1.any p = l2.any p := by
  by_cases h1 : l1.any p = true
  · obtain ⟨x, hx, hp⟩ := List.any_eq_true.mp h1
    rw [h1, (List.any_eq_true.mpr ⟨x, h.subset hx, hp⟩)]
  · have h2 : ¬ l2.any p = true := by
      intro hc
      obtain ⟨x, hx, hp⟩ := List.any_eq_true.mp hc
      exact h1 (List.any_eq_true.mpr ⟨x, h.symm.subset hx, hp⟩)
    rw [Bool.not_eq_true] at h1 h2
    rw [h1, h2]

theorem upsert_perm {l1 l2 : List (String × String)} (h : List.Perm l1 l2) (k v : String) :
    List.Perm (upsert l1 k v) (upsert l2 k v) := by
  unfold upsert
  rw [any_perm h]
  by_cases h2 : l2.any (fun kv => kv.1 = k) = true
  · rw [if_pos h2, if_pos h2]
    exact h.map _
  · rw [if_neg h2, if_neg h2]
    exact h.append_right _

theorem augmentHeaders_perm {crypto : Crypto} {headers1 headers2 : List (String × String)}
    {body : String} {session_token : Option String} {format_date : String}
    (h : List.Perm headers2 headers1) :
    List.Perm (augmentHeaders crypto headers2 body session_token format_date)
      (augmentHeaders crypto headers1 body session_token format_date) := by
  simp only [augmentHeaders]
  cases session_token with
  | none => exact upsert_perm (upsert_perm h _ _) _ _
  | some t =>
    show List.Perm
      (if t = "" then
        upsert (upsert headers2 "X-Date" format_date) "X-Content-Sha256" (crypto.sha256hex body)
      else
        upsert (upsert (upsert headers2 "X-Date" format_date) "X-Content-Sha256"
          (crypto.sha256hex body)) "X-Security-Token" t)
      (if t = "" then
        upsert (upsert headers1 "X-Date" format_date) "X-Content-Sha256" (crypto.sha256hex body)
      else
        upsert (upsert (upsert headers1 "X-Date" format_date) "X-Content-Sha256"
          (crypto.sha256hex body)) "X-Security-Token" t)
    by_cases ht : t = ""
    · rw [if_pos ht, if_pos ht]
      exact upsert_perm (upsert_perm h _ _) _ _
    · rw [if_neg ht, if_neg ht]
      exact upsert_perm (upsert_perm (upsert_perm h _ _) _ _) _ _

theorem collect_aux (headers : List (String × String)) :
    ∀ acc : List (String × String),
      (∀ n ∈ keysOf acc, n ∉ selectedLowerKeys headers) →
      (selectedLowerKeys headers).Nodup →
      headers.foldl
          (fun acc kv =>
            if isSignedHeaderName kv.1 then upsert acc (pyLower kv.1) kv.2 else acc) acc =
        acc ++ headers.filterMap
          (fun kv => if isSignedHeaderName kv.1 then some (pyLower kv.1, kv.2) else none) := by
  induction headers with
  | nil =>
    intro acc _ _
    simp
  | cons kv rest ih =>
    intro acc hdisj hnd
    rw [List.foldl_cons, List.filterMap_cons]
    by_cases hsel : isSignedHeaderName kv.1 = true
    · have hsl : selectedLowerKeys (kv :: rest) = pyLower kv.1 :: selectedLowerKeys rest := by
        simp [selectedLowerKeys, hsel]
      rw [if_pos hsel, if_pos hsel]
      have hnotin : ¬ (acc.any (fun x => x.1 = pyLower kv.1) = true) := by
        intro hany
        obtain ⟨x, hx, hdec⟩ := List.any_eq_true.mp hany
        simp only [decide_eq_true_eq] at hdec
        exact hdisj x.1 (List.mem_map.mpr ⟨x, hx, rfl⟩)
          (by rw [hsl, hdec]; exact List.mem_cons_self _ _)
      have hup : upsert acc (pyLower kv.1) kv.2 = acc ++ [(pyLower kv.1, kv.2)] := by
        unfold upsert
        rw [if_neg hnotin]
      rw [hup, ih (acc ++ [(pyLower kv.1, kv.2)]) ?_ ?_]
      · rw [List.append_assoc]
        rfl
      · intro n hn
        unfold keysOf at hn
        rw [List.map_append] at hn
        rcases List.mem_append.mp hn with h1 | h1
        · intro hmem
          exact hdisj n h1 (by rw [hsl]; exact List.mem_cons_of_mem _ hmem)
        · have hn' : n = pyLower kv.1 := by simpa using h1
          subst hn'
          intro hmem
          rw [hsl] at hnd
          exact (List.nodup_cons.mp hnd).1 hmem
      · rw [hsl] at hnd
        exact (List.nodup_cons.mp hnd).2
    · have hsl : selectedLowerKeys (kv :: rest) = selectedLowerKeys rest := by
        simp [selectedLowerKeys, hsel]
      rw [if_neg hsel, if_neg hsel]
      apply ih acc
      · intro n hn
        have := hdisj n hn
        rwa [hsl] at this
      · rwa [hsl] at hnd

theorem collect_eq_filterMap {headers : List (String × String)}
    (hnd : (selectedLowerKeys headers).Nodup) :
    collectSignedHeaders headers =
      headers.filterMap
        (fun kv => if isSignedHeaderName kv.1 then some (pyLower kv.1, kv.2) else none) := by
  unfold collectSignedHeaders
  have h := collect_aux headers [] (by intro n hn; cases hn) hnd
  simpa using h

theorem keysOf_filterMap_selected (headers : List (String × String)) :
    keysOf (headers.filterMap
        (fun kv => if isSignedHeaderName kv.1 then some (pyLower kv.1, kv.2) else none)) =
      selectedLowerKeys headers := by
  induction headers with
  | nil => rfl
  | cons kv rest ih =>
    by_cases hsel : isSignedHeaderName kv.1 = true
    · simp [List.filterMap_cons, selectedLowerKeys, hsel, keysOf] at ih ⊢
      exact ih
    · simp [List.filterMap_cons, selectedLowerKeys, hsel, keysOf] at ih ⊢
      exact ih

theorem keysOf_applyHostStrip (l : List (String × String)) :
    keysOf (applyHostStrip l) = keysOf l := by
  unfold keysOf applyHostStrip
  rw [List.map_map]
  apply List.map_congr_left
  intro kv _
  by_cases h : kv.1 = "host"
  · simp [h]
  · simp [h]

theorem lookup_eq_of_mem_nodup {l : List (String × String)} {k v : String}
    (hnd : (keysOf l).Nodup) (hm : (k, v) ∈ l) : lookupStr l k = some v := by
  induction l with
  | nil => cases hm
  | cons x xs ih =>
    have hnd' : x.1 ∉ keysOf xs ∧ (keysOf xs).Nodup := by
      have : keysOf (x :: xs) = x.1 :: keysOf xs := rfl
      rw [this] at hnd
      exact ⟨(List.nodup_cons.mp hnd).1, (List.nodup_cons.mp hnd).2⟩
    rw [lookupStr_cons]
    rcases List.mem_cons.mp hm with he | hmem
    · rw [← he]
      simp
    · by_cases hx : x.1 = k
      · exfalso
        apply hnd'.1
        rw [hx]
        exact List.mem_map.mpr ⟨(k, v), hmem, rfl⟩
      · rw [if_neg hx]
        exact ih hnd'.2 hmem

theorem lookup_perm_nodup {l1 l2 : List (String × String)} (h : List.Perm l1 l2)
    (hnd : (keysOf l1).Nodup) (k : String) : lookupStr l1 k = lookupStr l2 k := by
  have hnd2 : (keysOf l2).Nodup := ((h.map Prod.fst).nodup_iff).mp hnd
  cases e : lookupStr l1 k with
  | some v =>
    unfold lookupStr at e
    obtain ⟨kv, hfind, hsnd⟩ := Option.map_eq_some'.mp e
    have hk : kv.1 = k := by
      have := List.find?_some hfind
      simpa using this
    have hmem : kv ∈ l1 := List.mem_of_find?_eq_some hfind
    have hkv : kv = (k, v) := by
      cases kv
      cases hk
      cases hsnd
      rfl
    rw [hkv] at hmem
    exact (lookup_eq_of_mem_nodup hnd2 (h.subset hmem)).symm
  | none =>
    have hk : k ∉ keysOf l1 := by
      intro hmem
      obtain ⟨kv, hkv, hfst⟩ := List.mem_map.mp hmem
      unfold lookupStr at e
      rw [Option.map_eq_none'] at e
      exact (List.find?_eq_none.mp e) kv hkv (by simpa using hfst)
    have hk2 : k ∉ keysOf l2 := fun m => hk ((h.map Prod.fst).mem_iff.mpr m)
    symm
    unfold lookupStr
    rw [List.find?_eq_none.mpr, Option.map_none']
    intro x hx hdec
    simp only [decide_eq_true_eq] at hdec
    exact hk2 (List.mem_map.mpr ⟨x, hx, hdec⟩)

theorem sortedKeys_perm_eq {l1 l2 : List (String × String)} (h : List.Perm l1 l2) :
    sortedKeys l1 = sortedKeys l2 := by
  unfold sortedKeys
  apply List.eq_of_perm_of_sorted (r := pyStrLe)
  · exact (List.perm_insertionSort pyStrLe _).trans
      ((h.map _).trans (List.perm_insertionSort pyStrLe _).symm)
  · exact List.sorted_insertionSort pyStrLe _
  · exact List.sorted_insertionSort pyStrLe _

theorem signedHeaders_invariance (crypto : Crypto) (headers1 headers2 : List (String × String))
    (body : String) (st : Option String) (fd : String)
    (hh : List.Perm headers2 headers1)
    (hnd : (selectedLowerKeys (augmentHeaders crypto headers1 body st fd)).Nodup) :
    sortedKeys (signedHeadersOf crypto headers2 body st fd) =
      sortedKeys (signedHeadersOf crypto headers1 body st fd) ∧
    ∀ k, lookupStr (signedHeadersOf crypto headers2 body st fd) k =
      lookupStr (signedHeadersOf crypto headers1 body st fd) k := by
  have haug : List.Perm (augmentHeaders crypto headers2 body st fd)
      (augmentHeaders crypto headers1 body st fd) := augmentHeaders_perm hh
  have hselperm : List.Perm (selectedLowerKeys (augmentHeaders crypto headers2 body st fd))
      (selectedLowerKeys (augmentHeaders crypto headers1 body st fd)) :=
    haug.filterMap _
  have hnd2 : (selectedLowerKeys (augmentHeaders crypto headers2 body st fd)).Nodup :=
    (hselperm.nodup_iff).mpr hnd
  have hc1 := collect_eq_filterMap hnd
  have hc2 := collect_eq_filterMap hnd2
  have hperm : List.Perm (signedHeadersOf crypto headers2 body st fd)
      (signedHeadersOf crypto headers1 body st fd) := by
    unfold signedHeadersOf
    rw [hc1, hc2]
    exact (haug.filterMap _).map _
  have hkeys2 : (keysOf (signedHeadersOf crypto headers2 body st fd)).Nodup := by
    unfold signedHeadersOf
    rw [hc2, keysOf_applyHostStrip, keysOf_filterMap_selected]
    exact hnd2
  exact ⟨sortedKeys_perm_eq hperm, fun k => lookup_perm_nodup hperm hkeys2 k⟩

/-- C1 amended: with the timestamp fixed, `sign_request` is a pure function of
its inputs, and — provided no two selected header names coincide after
lower-casing — permuting the insertion order of the query dict or of the
header dict leaves the produced `Authorization` value byte-identical. -/
theorem C1_sign_order_invariance (crypto : Crypto) (path method : String)
    (headers1 headers2 : List (String × String)) (body : String)
    (query1 query2 : List (String × String))
    (access_key secret_key region service : String) (session_token : Option String)
    (format_date : String)
    (hq : List.Perm query2 query1) (hh : List.Perm headers2 headers1)
    (hnd : (selectedLowerKeys
      (augmentHeaders crypto headers1 body session_token format_date)).Nodup) :
    authorizationOf crypto path method headers2 body query2 access_key secret_key region
        service session_token format_date =
      authorizationOf crypto path method headers1 body query1 access_key secret_key region
        service session_token format_date := by
  obtain ⟨hsk, hlk⟩ :=
    signedHeaders_invariance crypto headers1 headers2 body session_token format_date hh hnd
  have hlines : signed_header_lines (signedHeadersOf crypto headers2 body session_token format_date) =
      signed_header_lines (signedHeadersOf crypto headers1 body session_token format_date) := by
    unfold signed_header_lines
    rw [hsk]
    apply congrArg String.join
    apply List.map_congr_left
    intro k _
    rw [hlk k]
  have hstr : signed_headers_string (signedHeadersOf crypto headers2 body session_token format_date) =
      signed_headers_string (signedHeadersOf crypto headers1 body session_token format_date) := by
    unfold signed_headers_string
    rw [hsk]
  have hqe : canonical_query query2 = canonical_query query1 := canonical_query_perm hq
  have hcr : canonicalRequestOf crypto path method headers2 body query2 session_token format_date =
      canonicalRequestOf crypto path method headers1 body query1 session_token format_date := by
    simp only [canonicalRequestOf]
    rw [hqe, hlines, hstr]
  have hsig : signatureOf crypto path method headers2 body query2 secret_key region service
        session_token format_date =
      signatureOf crypto path method headers1 body query1 secret_key region service
        session_token format_date := by
    simp only [signatureOf, signingStrOf]
    rw [hcr]
  have e2 : authorizationOf crypto path method headers2 body query2 access_key secret_key
      region service session_token format_date =
      some ("HMAC-SHA256 " ++ "Credential=" ++ access_key ++ "/" ++
        credentialScopeOf region service format_date ++ ", " ++
        "SignedHeaders=" ++
        signed_headers_string (signedHeadersOf crypto headers2 body session_token format_date) ++
        ", " ++ "Signature=" ++
        signatureOf crypto path method headers2 body query2 secret_key region service
          session_token format_date) := by
    unfold authorizationOf sign_request
    rw [lookup_upsert, if_pos rfl]
  have e1 : authorizationOf crypto path method headers1 body query1 access_key secret_key
      region service session_token format_date =
      some ("HMAC-SHA256 " ++ "Credential=" ++ access_key ++ "/" ++
        credentialScopeOf region service format_date ++ ", " ++
        "SignedHeaders=" ++
        signed_headers_string (signedHeadersOf crypto headers1 body session_token format_date) ++
        ", " ++ "Signature=" ++
        signatureOf crypto path method headers1 body query1 secret_key region service
          session_token format_date) := by
    unfold authorizationOf sign_request
    rw [lookup_upsert, if_pos rfl]
  rw [e1, e2, hstr, hsig]

set_option maxRecDepth 100000 in
/-- C1 counterexample: two header dicts that are permutations of each other
(`X-A` and `X-a` differ only in case, so they collide after lower-casing)
produce different `Authorization` values, because the later insertion wins in
the `signed_headers` dict.  The claim as stated — order invariance for every
header map — is therefore false. -/
theorem C1_sign_order_counterexample :
    authorizationOf cryptoRef "/" "POST"
        [("Host", "h"), ("X-A", "1"), ("X-a", "2")] "b" [("Action", "OCRNormal")]
        "ak" "sk" "r" "s" none "20261012T000000Z" ≠
      authorizationOf cryptoRef "/" "POST"
        [("Host", "h"), ("X-a", "2"), ("X-A", "1")] "b" [("Action", "OCRNormal")]
        "ak" "sk" "r" "s" none "20261012T000000Z" := by
  decide

/-- C1 witness: the amended invariance applied to the concrete request shape
the OCR client sends, with headers and query permuted, through
`C1_sign_order_invariance`. -/
theorem C1_sign_order_invariance_witness :
    authorizationOf cryptoRef "/" "POST"
        [("Content-Type", "application/x-www-form-urlencoded"), ("Accept", "application/json"),
         ("Host", "visual.volcengineapi.com")]
        "image_base64=zz"
        [("Version", "2020-08-26"), ("Action", "OCRNormal")]
        "ak" "sk" "cn-north-1" "cv" (some "tok") "20261012T000000Z" =
      authorizationOf cryptoRef "/" "POST"
        [("Host", "visual.volcengineapi.com"), ("Content-Type", "application/x-www-form-urlencoded"),
         ("Accept", "application/json")]
        "image_base64=zz"
        [("Action", "OCRNormal"), ("Version", "2020-08-26")]
        "ak" "sk" "cn-north-1" "cv" (some "tok") "20261012T000000Z" :=
  C1_sign_order_invariance cryptoRef "/" "POST"
    [("Host", "visual.volcengineapi.com"), ("Content-Type", "application/x-www-form-urlencoded"),
     ("Accept", "application/json")]
    [("Content-Type", "application/x-www-form-urlencoded"), ("Accept", "application/json"),
     ("Host", "visual.volcengineapi.com")]
    "image_base64=zz"
    [("Action", "OCRNormal"), ("Version", "2020-08-26")]
    [("Version", "2020-08-26"), ("Action", "OCRNormal")]
    "ak" "sk" "cn-north-1" "cv" (some "tok") "20261012T000000Z"
    (by decide) (by decide) (by decide)

/-- C2: the string fed to the signature is built exactly as specified — the
canonical query is the `&`-join of the percent-encoded `k=v` pairs in sorted
(encoded-key) order; the signed headers render as lower-cased `name:value`
lines each ending in a newline, in sorted key order, followed by the sorted
semicolon-join of the names; the canonical request is the newline-join of
method, path, canonical query, header lines, header names and the body hash;
the signing key chains the secret through date8, region, service and the
literal `"request"` by four HMAC-SHA256 applications; and the Authorization
header has the form
`HMAC-SHA256 Credential=<ak>/<date8>/<region>/<service>/request, SignedHeaders=<names>, Signature=<hex>`. -/
theorem C2_canonical_request_format (crypto : Crypto) (path method : String)
    (headers : List (String × String)) (body : String) (query : List (String × String))
    (access_key secret_key region service : String) (session_token : Option String)
    (format_date : String) :
    (∃ L : List (String × String),
      List.Perm L (query.map (fun kv => (pyQuote kv.1, pyQuote kv.2))) ∧
      List.Sorted (fun a b : String × String => strLeB a.1.data b.1.data = true) L ∧
      canonical_query query =
        String.intercalate "&" (L.map (fun kv => kv.1 ++ "=" ++ kv.2))) ∧
    (∃ K : List String,
      List.Perm K (keysOf (signedHeadersOf crypto headers body session_token format_date)) ∧
      List.Sorted pyStrLe K ∧
      signed_header_lines (signedHeadersOf crypto headers body session_token format_date) =
        String.join (K.map (fun k =>
          k ++ ":" ++
            (lookupStr (signedHeadersOf crypto headers body session_token format_date) k).getD ""
            ++ "\n")) ∧
      signed_headers_string (signedHeadersOf crypto headers body session_token format_date) =
        String.intercalate ";" K) ∧
    canonicalRequestOf crypto path method headers body query session_token format_date =
      String.intercalate "\n"
        [method, if path = "" then "/" else path, canonical_query query,
         signed_header_lines (signedHeadersOf crypto headers body session_token format_date),
         signed_headers_string (signedHeadersOf crypto headers body session_token format_date),
         crypto.sha256hex body] ∧
    get_signing_key crypto secret_key (date8 format_date) region service =
      crypto.hmacDig (crypto.hmacDig (crypto.hmacDig
          (crypto.hmacDig secret_key (date8 format_date)) region) service) "request" ∧
    signatureOf crypto path method headers body query secret_key region service session_token
        format_date =
      crypto.hmacHex (get_signing_key crypto secret_key (date8 format_date) region service)
        (String.intercalate "\n"
          ["HMAC-SHA256", format_date,
           String.intercalate "/" [date8 format_date, region, service, "request"],
           crypto.sha256hex
             (canonicalRequestOf crypto path method headers body query session_token
               format_date)]) ∧
    authorizationOf crypto path method headers body query access_key secret_key region service
        session_token format_date =
      some ("HMAC-SHA256 " ++ "Credential=" ++ access_key ++ "/" ++
        String.intercalate "/" [date8 format_date, region, service, "request"] ++ ", " ++
        "SignedHeaders=" ++
        signed_headers_string (signedHeadersOf crypto headers body session_token format_date)
        ++ ", " ++ "Signature=" ++
        signatureOf crypto path method headers body query secret_key region service
          session_token format_date) := by
  refine ⟨?_, ?_, rfl, rfl, rfl, ?_⟩
  · refine ⟨sortPairs (query.map fun kv => (pyQuote kv.1, pyQuote kv.2)), ?_, ?_, ?_⟩
    · unfold sortPairs
      exact List.perm_insertionSort pairLe _
    · unfold sortPairs
      exact (List.sorted_insertionSort pairLe _).imp (fun h => pairLe_key h)
    · rfl
  · refine ⟨sortedKeys (signedHeadersOf crypto headers body session_token format_date),
      ?_, ?_, rfl, rfl⟩
    · exact List.perm_insertionSort pyStrLe _
    · exact List.sorted_insertionSort pyStrLe _
  · unfold authorizationOf sign_request
    rw [lookup_upsert, if_pos rfl]
    rfl

end JasonAgent
